import Mathlib

/-!
A shallow embedding of the minirpc repository (Go) in Lean 4, together with
theorems checking the natural-language specification against the code.

Modelling conventions:
* Go machine integers (`uint64`) become `Nat` with an explicit `% 2^64` at the
  points where the source increments them.
* Go maps become association lists (`List (κ × ν)`) with map-assignment
  semantics (`mapAssign` overwrites an existing key).
* Fallible Go functions become `Except String α`; a Go `error` value is a
  `String` (its message), a nil-able error is `Option String`.
* A Go channel of `*Call` is observed through the `Call` record itself: the
  field `doneSignals` counts how many completion notifications were sent to the
  call's `Done` channel.
* Time (`time.Time`, `time.Duration`) is a `Nat` of nanoseconds.
* Concurrency is made explicit: where the source races a timer against a
  completion channel, the embedding takes the race outcome as a parameter.
-/

namespace Minirpc

/-! ### Codec layer (src/dayone/codec/codec.go, src/daytwo/codec/gob.go) -/

/-- The two codec identifiers declared in codec.go:
`GobType Type = "application/gob"`. -/
def GobType : String := "application/gob"

/-- `JsonType Type = "application/json"` (the source comments it as
"not implemented"). -/
def JsonType : String := "application/json"

/-- The codec constructors that exist in the repository.  Only the gob codec
is implemented (`NewGobCodec` in gob.go); there is no JSON codec constructor. -/
inductive CodecCtor where
  | gobCodec
deriving DecidableEq, Repr

/-- The map built by `init()` in codec.go:
`NewCodecFuncMap[GobType] = NewGobCodec; NewCodecFuncMap[JsonType] = NewGobCodec`.
Both identifiers are bound to the same gob constructor. -/
def NewCodecFuncMap : List (String × CodecCtor) :=
  [(GobType, CodecCtor.gobCodec), (JsonType, CodecCtor.gobCodec)]

/-! ### Option and parseOptions (src/unnamed/part_000, src/client.go) -/

/-- `const MagicNumber = 0x3bef5c`. -/
def MagicNumber : Nat := 0x3bef5c

/-- The `Option` struct of the wire protocol preamble (part_000).  Durations
are nanoseconds, matching Go's `time.Duration` unit. -/
structure RpcOption where
  magicNumber : Nat
  codecType : String
  connectTimeout : Nat
  handleTimeout : Nat
deriving DecidableEq, Repr

/-- `DefaultOption`: magic number, gob codec, 10-second connect timeout,
zero (unlimited) handle timeout. -/
def DefaultOption : RpcOption :=
  { magicNumber := MagicNumber
    codecType := GobType
    connectTimeout := 10000000000
    handleTimeout := 0 }

/-- `parseOptions(opts ...*Option)` from client.go.  The variadic argument is a
list; a nil `*Option` is `none`.  Control flow follows the source exactly:
`if len(opts)==0 || opts[0]==nil` return the default; `if len(opts)!=1` error;
otherwise force the magic number and default an empty codec type. -/
def parseOptions (opts : List (Option RpcOption)) : Except String RpcOption :=
  match opts with
  | [] => Except.ok DefaultOption
  | none :: _ => Except.ok DefaultOption
  | some o :: rest =>
    if rest.length + 1 ≠ 1 then Except.error "number of options is more than 1"
    else Except.ok
      { o with
        magicNumber := DefaultOption.magicNumber
        codecType := if o.codecType = "" then DefaultOption.codecType else o.codecType }

/-- The codec-selection step at the top of `NewClient` (client.go):
`f := codec.NewCodecFuncMap[opt.CodecType]; if f == nil` fail with
"invalid codec type"; otherwise the returned constructor is used for the
connection. -/
def newClientCodecSelect (opt : RpcOption) : Except String CodecCtor :=
  match List.lookup opt.codecType NewCodecFuncMap with
  | none => Except.error ("invalid codec type " ++ opt.codecType)
  | some f => Except.ok f

/-! ### Client core (src/client.go) -/

/-- The `Call` struct.  `args` and `reply` are payload-opaque and omitted.
`error` is the `Error` field (`none` = nil); `doneSignals` counts sends on the
call's `Done` channel performed by `call.done()`. -/
structure Call where
  seq : Nat
  serviceMethod : String
  error : Option String
  doneSignals : Nat
deriving DecidableEq, Repr

/-- `var ErrShutdown = errors.New("connection is shut down")`. -/
def ErrShutdown : String := "connection is shut down"

/-- The `Client` struct fields guarded by `mu`.  The codec, the header and
the mutexes themselves carry no state the claims need. -/
structure Client where
  seq : Nat
  pending : List (Nat × Call)
  closing : Bool
  shutdown : Bool
deriving DecidableEq, Repr

/-- Go map assignment `m[k] = v`: overwrite the entry if the key exists,
otherwise add it. -/
def mapAssign (m : List (Nat × Call)) (k : Nat) (v : Call) : List (Nat × Call) :=
  if (List.lookup k m).isSome then
    m.map (fun p => if p.1 = k then (k, v) else p)
  else
    m ++ [(k, v)]

/-- `newClientCodec` constructs the client with `seq: 1` and an empty pending
map (the codec and option fields are not modelled). -/
def newClientCodec : Client :=
  { seq := 1, pending := [], closing := false, shutdown := false }

/-- `Client.registerCall`: under the mutex, fail with `ErrShutdown` if closing
or shut down; otherwise `call.Seq = client.seq; client.pending[call.Seq] = call;
client.seq++` (uint64 increment, hence `% 2^64`) and return the assigned
sequence number. -/
def registerCall (c : Client) (call : Call) : Client × Except String Nat :=
  if c.closing || c.shutdown then
    (c, Except.error ErrShutdown)
  else
    let call' := { call with seq := c.seq }
    ({ c with
        pending := mapAssign c.pending call'.seq call'
        seq := (c.seq + 1) % 2 ^ 64 },
     Except.ok call'.seq)

/-- `Client.removeCall(seq)`: look the call up, delete the entry, return the
call (or `none` when absent). -/
def removeCall (c : Client) (seq : Nat) : Client × Option Call :=
  ({ c with pending := c.pending.filter (fun p => p.1 ≠ seq) },
   List.lookup seq c.pending)

/-- The effect the body of `terminateCalls(err)` has on the receiver it runs
on: set `shutdown = true`, and for every pending call set `call.Error = err`
and fire `call.done()` once.  The body never deletes pending entries. -/
def terminateCallsBody (c : Client) (err : String) : Client :=
  { c with
    shutdown := true
    pending := c.pending.map (fun p =>
      (p.1, { p.2 with error := some err, doneSignals := p.2.doneSignals + 1 })) }

/-- The state of the client that persists after `client.terminateCalls(err)`.
The source declares the method with a VALUE receiver, `func (client Client)
terminateCalls(err error)`: the body runs on a copy of the struct, so the
assignment `client.shutdown = true` is lost when the method returns, while the
writes that go through shared references — the `pending` map object and the
`*Call` pointers stored in it — persist. -/
def terminateCalls (c : Client) (err : String) : Client :=
  { c with pending := (terminateCallsBody c err).pending }

/-- The outcome of `Client.send` as far as the claims observe it. -/
inductive SendResult where
  | failedRegister (err : String)
  | writeFailed (err : String)
  | sent (seq : Nat)
deriving DecidableEq, Repr

/-- `Client.send(call)`: register the call; on registration failure set the
call's error, signal done, return.  Otherwise populate the header and write;
`writeErr` stands for the codec write outcome (`none` = success).  On write
failure remove the pending entry again. -/
def send (c : Client) (call : Call) (writeErr : Option String) : Client × SendResult :=
  match registerCall c call with
  | (c', Except.error e) => (c', SendResult.failedRegister e)
  | (c', Except.ok seq) =>
    match writeErr with
    | none => (c', SendResult.sent seq)
    | some e => ((removeCall c' seq).1, SendResult.writeFailed e)

/-- Which channel ends up stored in the `Done` field of the `Call` built by
`Client.Go`. -/
inductive DoneChan where
  | freshChan (capacity : Nat)
  | callersChan
deriving DecidableEq, Repr

/-- The outcome of the `done` handling at the top of `Client.Go`. -/
inductive GoOutcome where
  | panicked
  | returnsCall (done : DoneChan)
deriving DecidableEq, Repr

/-- Go's `cap` applied to a channel argument that may be nil: `cap(nil) == 0`.
A channel value is `none` (nil) or `some capacity`. -/
def chanCap : Option Nat → Nat
  | none => 0
  | some c => c

/-- The `done`-channel handling of `Client.Go` (client.go), verbatim:
`if done != nil { done = make(chan *Call, 10) } else if cap(done) == 0 {
log.Panic("rpc client:done channel is unbuffered") }`, after which the `Call`
is built with the current value of `done`. -/
def clientGoDone (done : Option Nat) : GoOutcome :=
  if done ≠ none then
    GoOutcome.returnsCall (DoneChan.freshChan 10)
  else if chanCap done = 0 then
    GoOutcome.panicked
  else
    GoOutcome.returnsCall DoneChan.callersChan

/-- `registerN c n`: run `registerCall` on `c` a total of `n` times (one fresh
call each time, as n concurrent `Go` invocations would), collecting the
results in order. -/
def registerN (c : Client) : Nat → Client × List (Except String Nat)
  | 0 => (c, [])
  | n + 1 =>
    let r := registerCall c { seq := 0, serviceMethod := "", error := none, doneSignals := 0 }
    let rest := registerN r.1 n
    (rest.1, r.2 :: rest.2)

/-! ### HTTP upgrade, client side (src/client.go, src/unnamed/part_000) -/

/-- `connected = "200 Connected to Mini RPC"` (part_000). -/
def connected : String := "200 Connected to Mini RPC"

/-- `defaultRPCPath = "/_minirpc_"` (part_000). -/
def defaultRPCPath : String := "/_minirpc_"

/-- The bytes `NewHTTPClient` writes to the connection before reading the
response: `fmt.Sprintf("CONNECT %s HTTP/1.0\n\n", defaultRPCPath)`. -/
def connectRequestLine : String :=
  "CONNECT " ++ defaultRPCPath ++ " HTTP/1.0\n\n"

/-- What `NewHTTPClient` does after writing the request line. -/
inductive HTTPClientStep where
  | proceedToNewClient
  | failed (err : String)
deriving DecidableEq, Repr

/-- `NewHTTPClient(conn, opt)`: write the CONNECT line, read the HTTP response
(`readErr` is the read outcome, `respStatus` the parsed `resp.Status`); hand
the raw stream to `NewClient` iff the read succeeded and the status equals
`connected`; otherwise fail.  Returns the written bytes and the step taken. -/
def NewHTTPClient (readErr : Option String) (respStatus : String) :
    String × HTTPClientStep :=
  (connectRequestLine,
   match readErr with
   | none =>
     if respStatus = connected then HTTPClientStep.proceedToNewClient
     else HTTPClientStep.failed ("unexpected HTTP response: " ++ respStatus)
   | some e => HTTPClientStep.failed e)

/-! ### Service registration (src/unnamed/part_001) -/

/-- The attributes of a `reflect.Type` that `registerMethods` and the spec
inspect.  `nameIsExported` is `ast.IsExported(t.Name())` (false for unnamed
types such as pointers, whose `Name()` is empty); `pkgPath` is `t.PkgPath()`
(empty for built-in and unnamed types); `isPtr` is `t.Kind() == reflect.Ptr`;
the `elem…` fields are the same attributes of the element type a pointer
points to (for a non-pointer type, of the type itself). -/
structure GoType where
  nameIsExported : Bool
  pkgPath : String
  isPtr : Bool
  elemNameIsExported : Bool
  elemPkgPath : String
deriving DecidableEq, Repr

/-- `isExportedOrBuiltinType(t)`:
`ast.IsExported(t.Name()) || t.PkgPath() == ""`. -/
def isExportedOrBuiltinType (t : GoType) : Bool :=
  t.nameIsExported || t.pkgPath = ""

/-- One entry of `s.typ.Method(i)` as `registerMethods` inspects it.  `numIn`
counts the receiver (so a two-parameter method has `numIn = 3`); `outIsError`
is `mType.Out(0) == reflect.TypeOf((*error)(nil)).Elem()` and is only
meaningful when `numOut ≥ 1`.  Go reflection enumerates exported methods
only, so any input list models the exported method set of the receiver. -/
structure GoMethod where
  name : String
  numIn : Nat
  numOut : Nat
  outIsError : Bool
  argType : GoType
  replyType : GoType
deriving DecidableEq, Repr

/-- `service.registerMethods` (part_001): skip (`continue`) when
`mType.NumIn() != 3 || mType.NumOut() != 1`; skip when the single result is
not the error type; skip when either parameter type fails
`isExportedOrBuiltinType`; otherwise store the method under its name. -/
def registerMethods (ms : List GoMethod) : List (String × GoMethod) :=
  ms.filterMap (fun m =>
    if m.numIn ≠ 3 || m.numOut ≠ 1 then none
    else if !m.outIsError then none
    else if !isExportedOrBuiltinType m.argType || !isExportedOrBuiltinType m.replyType then none
    else some (m.name, m))

/-- The eligibility rule actually implemented by `registerMethods`, as a
single predicate (used to state the amended claim). -/
def eligibleMethod (m : GoMethod) : Bool :=
  m.numIn = 3 && m.numOut = 1 && m.outIsError &&
    isExportedOrBuiltinType m.argType && isExportedOrBuiltinType m.replyType

/-- The eligibility rule as the spec words it (`reply is a pointer-like to
some type`, and the ELEMENT types of arg and reply exported or built-in).
Stated from the spec only, to be compared with `registerMethods`. -/
def specEligibleMethod (m : GoMethod) : Bool :=
  m.numIn = 3 && m.numOut = 1 && m.outIsError && m.replyType.isPtr &&
    (m.argType.elemNameIsExported || m.argType.elemPkgPath = "") &&
    (m.replyType.elemNameIsExported || m.replyType.elemPkgPath = "")

/-! ### findService (src/unnamed/part_000) -/

/-- `strings.LastIndex(s, ".")` at character granularity: the index of the
last occurrence, or `none`. -/
def lastIndexOf (cs : List Char) (c : Char) : Option Nat :=
  match cs with
  | [] => none
  | x :: xs =>
    match lastIndexOf xs c with
    | some i => some (i + 1)
    | none => if x = c then some 0 else none

/-- A registered service: its name and its method map (built by
`registerMethods`). -/
structure Service where
  name : String
  method : List (String × GoMethod)
deriving DecidableEq, Repr

/-- The result of `Server.findService`, with the exact error strings the
source builds. -/
inductive FindResult where
  | illFormed (msg : String)
  | noService (msg : String)
  | noMethod (msg : String)
  | found (svc : Service) (m : GoMethod)
deriving DecidableEq, Repr

/-- `Server.findService(serviceMethod)` (part_000): split at the last `.`;
no dot → "ill-formed"; unknown service name → "can't find service"; service
found but method name absent from its map → "can't find method"; otherwise
return the pair.  `serviceMap` models the server's `sync.Map`. -/
def findService (serviceMap : List (String × Service)) (serviceMethod : String) :
    FindResult :=
  match lastIndexOf serviceMethod.data '.' with
  | none =>
    FindResult.illFormed ("rpc server:service/method request ill-formed:" ++ serviceMethod)
  | some dot =>
    let serviceName := String.mk (serviceMethod.data.take dot)
    let methodName := String.mk (serviceMethod.data.drop (dot + 1))
    match List.lookup serviceName serviceMap with
    | none => FindResult.noService ("rpc server:can't find service" ++ serviceName)
    | some svc =>
      match List.lookup methodName svc.method with
      | none => FindResult.noMethod ("rpc server : can't find method" ++ methodName)
      | some m => FindResult.found svc m

/-! ### handleRequest timeout handling (src/unnamed/part_000) -/

/-- Which of the two `select` cases fires first when the handle timeout is
non-zero: the `time.After(timeout)` timer, or the `called` signal from the
invocation goroutine. -/
inductive Race where
  | timerFirst
  | calledFirst
deriving DecidableEq, Repr

/-- One response frame as written by `sendResponse`: the `Header.Error` string
and whether the body is the `invalidRequest` sentinel (rather than the
method's reply value). -/
structure WireResponse where
  headerError : String
  bodyIsInvalidRequest : Bool
deriving DecidableEq, Repr

/-- What the invocation goroutine of `handleRequest` sends once `svc.call`
returns: on a method error, a response carrying the error and the
`invalidRequest` sentinel; on success, the reply value. -/
def goroutineResponse (callErr : Option String) : WireResponse :=
  match callErr with
  | some e => { headerError := e, bodyIsInvalidRequest := true }
  | none => { headerError := "", bodyIsInvalidRequest := false }

/-- What `handleRequest` observably does. -/
structure HandleOutcome where
  invocationRuns : Bool
  handlerResponse : WireResponse
  waitedForSent : Bool
deriving DecidableEq, Repr

/-- `Server.handleRequest` (part_000).  The goroutine invoking the user method
is spawned unconditionally and is never cancelled (`invocationRuns`).  With
`timeout == 0` the handler waits for `called` and then `sent`, so the frame
on the wire is the goroutine's response (`waitedForSent`).  With a non-zero
timeout it races the timer against `called` (`race` is the oracle for the
outcome, which the source leaves to the scheduler): if the timer fires first
the handler itself writes a response with
`Header.Error = "rpc server: request handle timeout: expect within <d>"` and
the `invalidRequest` body; if `called` fires first it waits for `sent`.
`showDur` renders a `time.Duration` the way Go's `%s` verb does. -/
def handleRequest (showDur : Nat → String) (timeout : Nat) (callErr : Option String)
    (race : Race) : HandleOutcome :=
  if timeout = 0 then
    { invocationRuns := true
      handlerResponse := goroutineResponse callErr
      waitedForSent := true }
  else
    match race with
    | Race.timerFirst =>
      { invocationRuns := true
        handlerResponse :=
          { headerError := "rpc server: request handle timeout: expect within " ++ showDur timeout
            bodyIsInvalidRequest := true }
        waitedForSent := false }
    | Race.calledFirst =>
      { invocationRuns := true
        handlerResponse := goroutineResponse callErr
        waitedForSent := true }

/-! ### Registry (src/unnamed/part_003) -/

/-- `ServerItem`: the address and the `start` timestamp of the last
registration or heartbeat (nanoseconds). -/
structure ServerItem where
  addr : String
  start : Nat
deriving DecidableEq, Repr

/-- `MiniRegistry`: the timeout and the `servers` map keyed by address. -/
structure MiniRegistry where
  timeout : Nat
  servers : List (String × ServerItem)
deriving DecidableEq, Repr

/-- The survival test of `aliveServers`:
`r.timeout == 0 || s.start.Add(r.timeout).After(time.Now())`. -/
def keepAlive (timeout now : Nat) (s : ServerItem) : Bool :=
  timeout = 0 || decide (now < s.start + timeout)

/-- `MiniRegistry.aliveServers`: keep every surviving entry (collecting its
address), delete every other entry in place, and return the addresses sorted
ascending (`sort.Strings`).  Returns the sorted list and the registry as it
persists after the call (deletions go through the shared map). -/
def aliveServers (r : MiniRegistry) (now : Nat) : List String × MiniRegistry :=
  let survivors := r.servers.filter (fun p => keepAlive r.timeout now p.2)
  (List.insertionSort (· ≤ ·) (survivors.map Prod.fst),
   { r with servers := survivors })

/-- A minimal HTTP response: header fields, status code, body. -/
structure HttpResponse where
  headerFields : List (String × String)
  statusCode : Nat
  body : String
deriving DecidableEq, Repr

/-- The `GET` branch of `MiniRegistry.ServeHTTP`: set the response header
`X-Minirpc-Servers` to the comma-joined alive list (`strings.Join`), write
nothing to the body (the implicit status is 200). -/
def serveGET (r : MiniRegistry) (now : Nat) : HttpResponse × MiniRegistry :=
  let res := aliveServers r now
  ({ headerFields := [("X-Minirpc-Servers", String.intercalate "," res.1)]
     statusCode := 200
     body := "" },
   res.2)

/-! ### Concrete fixtures used by closed theorems -/

/-- A pending call used in the `terminateCalls` evaluation. -/
def c2Call : Call :=
  { seq := 1, serviceMethod := "Foo.Sum", error := none, doneSignals := 0 }

/-- A live client with one pending call, about to suffer a connection error. -/
def c2Client : Client :=
  { seq := 2, pending := [(1, c2Call)], closing := false, shutdown := false }

/-- A method `M(arg int, reply int) error`: both parameter types are built-in
(`PkgPath() == ""`), the reply is NOT a pointer. -/
def c3MethodM : GoMethod :=
  { name := "M"
    numIn := 3
    numOut := 1
    outIsError := true
    argType :=
      { nameIsExported := false, pkgPath := "", isPtr := false
        elemNameIsExported := false, elemPkgPath := "" }
    replyType :=
      { nameIsExported := false, pkgPath := "", isPtr := false
        elemNameIsExported := false, elemPkgPath := "" } }

/-- A well-formed registered method `Sum` for the findService fixture. -/
def c8MethodSum : GoMethod :=
  { name := "Sum"
    numIn := 3
    numOut := 1
    outIsError := true
    argType :=
      { nameIsExported := true, pkgPath := "main", isPtr := false
        elemNameIsExported := true, elemPkgPath := "main" }
    replyType :=
      { nameIsExported := false, pkgPath := "", isPtr := true
        elemNameIsExported := true, elemPkgPath := "main" } }

/-- A service `Foo` exposing the single method `Sum`. -/
def c8ServiceFoo : Service :=
  { name := "Foo", method := [("Sum", c8MethodSum)] }

/-- A registry with a one-nanosecond timeout holding a live and a dead
entry. -/
def c7Registry : MiniRegistry :=
  { timeout := 1
    servers := [("tcp@a", { addr := "tcp@a", start := 9 }),
                ("tcp@b", { addr := "tcp@b", start := 0 })] }

/-! ## Helper lemmas -/

theorem lastIndexOf_eq_none (cs : List Char) (c : Char) :
    lastIndexOf cs c = none ↔ c ∉ cs := by
  induction cs with
  | nil => simp [lastIndexOf]
  | cons x xs ih =>
    unfold lastIndexOf
    cases h : lastIndexOf xs c with
    | some i =>
      have hmem : c ∈ xs := by
        by_contra hc
        rw [ih.mpr hc] at h
        exact Option.noConfusion h
      simp [hmem]
    | none =>
      have hx : c ∉ xs := ih.mp h
      by_cases he : x = c
      · simp [he]
      · have he' : ¬c = x := fun hce => he hce.symm
        simp [he, he', hx]

theorem lastIndexOf_append (pre suf : List Char) (c : Char) (h : c ∉ suf) :
    lastIndexOf (pre ++ c :: suf) c = some pre.length := by
  induction pre with
  | nil =>
    simp only [List.nil_append]
    unfold lastIndexOf
    rw [(lastIndexOf_eq_none suf c).mpr h]
    simp
  | cons x xs ih =>
    simp only [List.cons_append]
    unfold lastIndexOf
    rw [ih]
    rfl

theorem lookup_mapAssign (m : List (Nat × Call)) (k : Nat) (v : Call) :
    List.lookup k (mapAssign m k v) = some v := by
  unfold mapAssign
  split
  case isTrue hs =>
    induction m with
    | nil => simp at hs
    | cons p ps ih =>
      obtain ⟨a, b⟩ := p
      by_cases hk : a = k
      · subst hk
        show List.lookup a ((if a = a then (a, v) else (a, b)) :: ps.map _) = some v
        rw [if_pos rfl]
        simp [List.lookup]
      · have hb : (k == a) = false := by
          rw [beq_eq_false_iff_ne]
          exact fun he => hk he.symm
        have hs' : (List.lookup k ps).isSome = true := by
          simp only [List.lookup, hb] at hs
          exact hs
        show List.lookup k ((if a = k then (k, v) else (a, b)) :: ps.map _) = some v
        rw [if_neg hk]
        simp only [List.lookup, hb]
        exact ih hs'
  case isFalse hs =>
    induction m with
    | nil => simp [List.lookup]
    | cons p ps ih =>
      obtain ⟨a, b⟩ := p
      by_cases hk : a = k
      · exfalso
        apply hs
        subst hk
        simp [List.lookup]
      · have hb : (k == a) = false := by
          rw [beq_eq_false_iff_ne]
          exact fun he => hk he.symm
        simp only [List.cons_append, List.lookup, hb] at hs ⊢
        exact ih hs

theorem registerCall_ok (c : Client) (call : Call) (h1 : c.closing = false)
    (h2 : c.shutdown = false) :
    registerCall c call =
      ({ c with
          pending := mapAssign c.pending c.seq { call with seq := c.seq }
          seq := (c.seq + 1) % 2 ^ 64 },
       Except.ok c.seq) := by
  unfold registerCall
  rw [h1, h2]
  rfl

theorem registerN_results (n : Nat) : ∀ c : Client, c.closing = false → c.shutdown = false →
    c.seq + n ≤ 2 ^ 64 →
    (registerN c n).2 = (List.range n).map (fun i => Except.ok (c.seq + i)) := by
  induction n with
  | zero => intro c _ _ _; rfl
  | succ n ih =>
    intro c h1 h2 h3
    have hrw := registerCall_ok c ⟨0, "", none, 0⟩ h1 h2
    simp only [registerN, hrw]
    have hw : c.seq + 1 < 2 ^ 64 ∨ (c.seq + 1 = 2 ^ 64 ∧ n = 0) := by omega
    rcases hw with hw | ⟨hw, hn⟩
    · have hseq : (c.seq + 1) % 2 ^ 64 = c.seq + 1 := Nat.mod_eq_of_lt hw
      have hih := ih
        { c with
          pending := mapAssign c.pending c.seq
            { seq := c.seq, serviceMethod := "", error := none, doneSignals := 0 }
          seq := (c.seq + 1) % 2 ^ 64 }
        h1 h2 (by simp only [hseq]; omega)
      rw [hih]
      rw [List.range_succ_eq_map, List.map_cons, List.map_map]
      congr 1
      refine List.map_congr_left fun i _ => ?_
      simp only [Function.comp, hseq]
      exact congrArg Except.ok (by omega)
    · subst hn
      simp [registerN, List.range_succ]

/-! ## Claim theorems -/

/-- C1: evaluation of the `done`-channel handling of `Client.Go` at the inputs
the claim speaks about.  The claim says a nil `done` yields a fresh buffered
channel of capacity 10, an unbuffered channel panics, and a buffered channel
of capacity ≥ 1 is kept.  The code has the nil test inverted: a nil `done`
panics (because `cap(nil) == 0`), while ANY non-nil channel — buffered or
not — is silently replaced by a fresh channel of capacity 10, so the caller's
channel never receives the completion notification. -/
theorem c1_go_done_eval :
    clientGoDone none = GoOutcome.panicked ∧
    clientGoDone (some 0) = GoOutcome.returnsCall (DoneChan.freshChan 10) ∧
    clientGoDone (some 1) = GoOutcome.returnsCall (DoneChan.freshChan 10) := by
  decide

/-- C2: evaluation of `terminateCalls` at a client with one pending call.
The claim says the shutdown flag becomes true, pending is emptied, and a
subsequent send fails with `ErrShutdown`.  Because the method has a value
receiver, the persisted client still has `shutdown = false`, the pending map
still holds its entry (though the call itself was completed with the error
and one done signal, which is the part of the claim that does hold), and a
subsequent `send` registers a fresh call successfully instead of failing. -/
theorem c2_terminate_calls_eval :
    (terminateCalls c2Client "write error").shutdown = false ∧
    (terminateCalls c2Client "write error").pending ≠ [] ∧
    List.lookup 1 (terminateCalls c2Client "write error").pending =
      some { c2Call with error := some "write error", doneSignals := 1 } ∧
    (send (terminateCalls c2Client "write error")
        { seq := 0, serviceMethod := "Bar.Baz", error := none, doneSignals := 0 } none).2 =
      SendResult.sent 2 := by
  refine ⟨rfl, ?_, rfl, rfl⟩
  intro h
  exact List.noConfusion h

/-- C5: on a freshly constructed client the sequence counter starts at 1;
every successful `registerCall` hands out the current counter, stores the call
under it, and bumps the counter; for any run of n registrations on a live
client the results are the n distinct consecutive values seq₀, …, seq₀+n-1
(the uint64 counter not wrapping within the run). -/
theorem c5_sequence (c : Client) (call : Call) (n : Nat) :
    newClientCodec.seq = 1 ∧
    (c.closing = false → c.shutdown = false → c.seq + n ≤ 2 ^ 64 →
      (registerN c n).2 = (List.range n).map (fun i => Except.ok (c.seq + i)) ∧
      ((List.range n).map (fun i => c.seq + i)).Nodup) ∧
    (c.closing = false → c.shutdown = false →
      (registerCall c call).2 = Except.ok c.seq ∧
      List.lookup c.seq (registerCall c call).1.pending = some { call with seq := c.seq } ∧
      (registerCall c call).1.seq = (c.seq + 1) % 2 ^ 64) := by
  refine ⟨rfl, fun h1 h2 h3 => ⟨registerN_results n c h1 h2 h3, ?_⟩, fun h1 h2 => ?_⟩
  · exact (List.nodup_range n).map fun a b h => by omega
  · rw [registerCall_ok c call h1 h2]
    exact ⟨rfl, lookup_mapAssign _ _ _, rfl⟩

/-- C5 witness: three registrations on a fresh client yield sequence numbers
1, 2, 3. -/
theorem c5_witness :
    (registerN newClientCodec 3).2 = [Except.ok 1, Except.ok 2, Except.ok 3] ∧
    (registerCall newClientCodec c2Call).2 = Except.ok 1 := by
  have h := ((c5_sequence newClientCodec c2Call 3).2.1 rfl rfl (by decide)).1
  have h2 := ((c5_sequence newClientCodec c2Call 3).2.2 rfl rfl).1
  exact ⟨h.trans (by rfl), h2⟩

/-- C3 counterexample: a method `M(arg int, reply int) error`, whose reply is
NOT pointer-like, is nevertheless registered by `registerMethods` — refuting
the claim's "if and only if … reply is a pointer-like" at a concrete input. -/
theorem c3_counterexample :
    registerMethods [c3MethodM] = [("M", c3MethodM)] ∧
    c3MethodM.replyType.isPtr = false ∧
    specEligibleMethod c3MethodM = false := by
  decide

/-- C3 (amended): a method is included in the method map iff it takes exactly
two parameters besides the receiver, its single return value is of the error
kind, and both parameter types (the types themselves, not their pointees) are
exported or built-in in the sense of `isExportedOrBuiltinType`; there is no
pointer-likeness requirement on reply, and every other method is skipped
silently. -/
theorem c3_registerMethods (ms : List GoMethod) (p : String × GoMethod) :
    p ∈ registerMethods ms ↔ p.2 ∈ ms ∧ p.1 = p.2.name ∧ eligibleMethod p.2 = true := by
  obtain ⟨pn, pm⟩ := p
  rw [registerMethods, List.mem_filterMap]
  constructor
  · rintro ⟨m, hm, hf⟩
    split at hf
    · exact Option.noConfusion hf
    · split at hf
      · exact Option.noConfusion hf
      · split at hf
        · exact Option.noConfusion hf
        · rename_i hA hB hC
          obtain ⟨he1, he2⟩ := Prod.mk.injEq .. ▸ Option.some.inj hf
          subst he1
          subst he2
          refine ⟨hm, rfl, ?_⟩
          simp only [Bool.or_eq_true, decide_eq_true_eq, not_or, Bool.not_eq_true',
            Bool.not_eq_false] at hA hB hC
          obtain ⟨hA1, hA2⟩ := hA
          rw [not_ne_iff] at hA1 hA2
          simp [eligibleMethod, hA1, hA2, hB, hC.1, hC.2]
  · rintro ⟨hm, hp, he⟩
    refine ⟨pm, hm, ?_⟩
    simp only [eligibleMethod, Bool.and_eq_true, decide_eq_true_eq] at he
    obtain ⟨⟨⟨⟨h1, h2⟩, h3⟩, h4⟩, h5⟩ := he
    rw [if_neg, if_neg, if_neg]
    · change pn = pm.name at hp
      rw [hp]
    · simp [h4, h5]
    · simp [h3]
    · simp [h1, h2]

/-- C3 witness: the eligible method `Sum` of the fixture is registered under
its name. -/
theorem c3_witness :
    ("Sum", c8MethodSum) ∈ registerMethods [c8MethodSum] :=
  (c3_registerMethods [c8MethodSum] ("Sum", c8MethodSum)).mpr
    ⟨List.mem_singleton_self _, rfl, by decide⟩

/-- C4 counterexample: the request bytes `NewHTTPClient` writes are not the
claim's literal `"CONNECT /_minirpc_/ HTTP/1.0\r\n\r\n"` — the path has no
trailing slash and the blank line uses bare line-feeds. -/
theorem c4_counterexample :
    (NewHTTPClient none connected).1 ≠ "CONNECT /_minirpc_/ HTTP/1.0\r\n\r\n" := by
  decide

/-- C4 (amended): `NewHTTPClient` writes exactly
`"CONNECT /_minirpc_ HTTP/1.0\n\n"` (default path `/_minirpc_`, bare
line-feeds), and hands the raw stream to the RPC client constructor iff the
response was parsed without error and its status is exactly
`"200 Connected to Mini RPC"`, failing otherwise. -/
theorem c4_new_http_client (readErr : Option String) (respStatus : String) :
    (NewHTTPClient readErr respStatus).1 = "CONNECT /_minirpc_ HTTP/1.0\n\n" ∧
    ((NewHTTPClient readErr respStatus).2 = HTTPClientStep.proceedToNewClient ↔
      readErr = none ∧ respStatus = "200 Connected to Mini RPC") := by
  constructor
  · rfl
  · cases readErr with
    | some e => simp [NewHTTPClient]
    | none =>
      simp only [NewHTTPClient, true_and, Option.some.injEq]
      by_cases h : respStatus = connected
      · simp [h, connected]
      · rw [if_neg h]
        simp only [connected] at h
        simp [h]

/-- C4 witness: a clean read with the exact status "200 Connected to Mini
RPC" makes `NewHTTPClient` proceed to the RPC client constructor. -/
theorem c4_witness :
    (NewHTTPClient none "200 Connected to Mini RPC").2 =
      HTTPClientStep.proceedToNewClient :=
  (c4_new_http_client none "200 Connected to Mini RPC").2.mpr ⟨rfl, rfl⟩

/-- C6: in `handleRequest` the user invocation always runs (it is never
cancelled); with a non-zero timeout, if the timer fires first the handler
writes a response whose header error is
"rpc server: request handle timeout: expect within <d>" with the no-body
sentinel, and if the invocation signals first the handler waits for the send;
with timeout 0 it waits unconditionally and the goroutine's own response is
what reaches the wire. -/
theorem c6_handle_request (showDur : Nat → String) (d : Nat) (callErr : Option String)
    (race : Race) :
    (handleRequest showDur d callErr race).invocationRuns = true ∧
    (d ≠ 0 → (handleRequest showDur d callErr Race.timerFirst).handlerResponse =
      { headerError := "rpc server: request handle timeout: expect within " ++ showDur d
        bodyIsInvalidRequest := true }) ∧
    (d ≠ 0 → (handleRequest showDur d callErr Race.calledFirst).waitedForSent = true ∧
      (handleRequest showDur d callErr Race.calledFirst).handlerResponse =
        goroutineResponse callErr) ∧
    (d = 0 → (handleRequest showDur d callErr race).waitedForSent = true ∧
      (handleRequest showDur d callErr race).handlerResponse = goroutineResponse callErr) := by
  refine ⟨?_, fun hd => ?_, fun hd => ?_, fun hd => ?_⟩
  · unfold handleRequest
    split
    · rfl
    · cases race <;> rfl
  · unfold handleRequest
    rw [if_neg hd]
  · unfold handleRequest
    rw [if_neg hd]
    exact ⟨rfl, rfl⟩
  · unfold handleRequest
    rw [if_pos hd]
    exact ⟨rfl, rfl⟩

/-- C6 witness: with a 3-nanosecond timeout rendered as "3ns" and the timer
winning the race, the handler response carries the timeout message and the
no-body sentinel. -/
theorem c6_witness :
    (handleRequest (fun _ => "3ns") 3 none Race.timerFirst).handlerResponse =
      { headerError := "rpc server: request handle timeout: expect within 3ns"
        bodyIsInvalidRequest := true } := by
  have h := (c6_handle_request (fun _ => "3ns") 3 none Race.timerFirst).2.1 (by decide)
  exact h.trans (by decide)

/-- C7: a GET query of the registry at time `now` answers with an empty body
and an `X-Minirpc-Servers` header holding the comma-joined,
ascending-sorted list of exactly the addresses whose entry satisfies
`ttl == 0 ∨ last_heartbeat + ttl > now`; every entry failing the test is
deleted from the registry map by the same query. -/
theorem c7_serve_get (r : MiniRegistry) (now : Nat) :
    ∃ l : List String,
      (serveGET r now).1.headerFields = [("X-Minirpc-Servers", String.intercalate "," l)] ∧
      (serveGET r now).1.body = "" ∧
      List.Sorted (· ≤ ·) l ∧
      (∀ a : String, a ∈ l ↔ ∃ it : ServerItem,
        (a, it) ∈ r.servers ∧ (r.timeout = 0 ∨ now < it.start + r.timeout)) ∧
      (∀ a : String, ∀ it : ServerItem,
        ((a, it) ∈ (serveGET r now).2.servers ↔
          (a, it) ∈ r.servers ∧ (r.timeout = 0 ∨ now < it.start + r.timeout))) := by
  refine ⟨(aliveServers r now).1, rfl, rfl, ?_, ?_, ?_⟩
  · exact List.sorted_insertionSort _ _
  · intro a
    show a ∈ List.insertionSort _ _ ↔ _
    rw [List.mem_insertionSort]
    constructor
    · intro ha
      obtain ⟨p, hp, hpa⟩ := List.mem_map.mp ha
      obtain ⟨hmem, hcond⟩ := List.mem_filter.mp hp
      refine ⟨p.2, ?_, ?_⟩
      · rw [← hpa]
        exact hmem
      · simpa [keepAlive] using hcond
    · rintro ⟨it, hmem, hcond⟩
      refine List.mem_map.mpr ⟨(a, it), List.mem_filter.mpr ⟨hmem, ?_⟩, rfl⟩
      simpa [keepAlive] using hcond
  · intro a it
    show (a, it) ∈ r.servers.filter _ ↔ _
    rw [List.mem_filter]
    constructor
    · rintro ⟨hmem, hcond⟩
      exact ⟨hmem, by simpa [keepAlive] using hcond⟩
    · rintro ⟨hmem, hcond⟩
      exact ⟨hmem, by simpa [keepAlive] using hcond⟩

/-- C7 witness: a GET of the fixture registry at time 9 answers with an empty
body, and the entry whose heartbeat is fresh enough is in the alive list while
the stale entry is not. -/
theorem c7_witness :
    (serveGET c7Registry 9).1.body = "" ∧
    (∃ l : List String, "tcp@a" ∈ l ∧ "tcp@b" ∉ l ∧
      (serveGET c7Registry 9).1.headerFields =
        [("X-Minirpc-Servers", String.intercalate "," l)]) := by
  obtain ⟨l, h1, h2, _, h4, _⟩ := c7_serve_get c7Registry 9
  refine ⟨h2, l, ?_, ?_, h1⟩
  · exact (h4 "tcp@a").mpr ⟨{ addr := "tcp@a", start := 9 }, by decide, by decide⟩
  · intro hmem
    obtain ⟨it, hit, hcond⟩ := (h4 "tcp@b").mp hmem
    simp only [c7Registry, List.mem_cons, List.not_mem_nil, or_false,
      Prod.mk.injEq] at hit
    rcases hit with ⟨hab, _⟩ | ⟨_, hit2⟩
    · exact absurd hab (by decide)
    · subst hit2
      revert hcond
      decide

/-- C8: `findService` splits its argument at the last dot; with no dot it
fails ill-formed; otherwise, writing the argument as `pre ++ "." ++ suf` with
a dot-free suffix, it fails can't-find-service exactly when `pre` names no
registered service, fails can't-find-method exactly when that service's map
has no entry for `suf`, and otherwise returns the service and the method
descriptor. -/
theorem c8_find_service (sm : List (String × Service)) (s pre suf : String) :
    ('.' ∉ s.data →
      findService sm s =
        FindResult.illFormed ("rpc server:service/method request ill-formed:" ++ s)) ∧
    ('.' ∉ suf.data →
      findService sm (pre ++ "." ++ suf) =
        match List.lookup pre sm with
        | none => FindResult.noService ("rpc server:can't find service" ++ pre)
        | some svc =>
          match List.lookup suf svc.method with
          | none => FindResult.noMethod ("rpc server : can't find method" ++ suf)
          | some m => FindResult.found svc m) := by
  constructor
  · intro h
    unfold findService
    rw [(lastIndexOf_eq_none _ _).mpr h]
  · intro h
    obtain ⟨pl⟩ := pre
    obtain ⟨sl⟩ := suf
    have hdata : (String.mk pl ++ "." ++ String.mk sl).data = pl ++ '.' :: sl := by
      simp [String.data_append]
    have hsplit := lastIndexOf_append pl sl '.' h
    have htake : (pl ++ '.' :: sl).take pl.length = pl := List.take_left pl _
    have hdrop : (pl ++ '.' :: sl).drop (pl.length + 1) = sl := by
      have : pl ++ '.' :: sl = (pl ++ ['.']) ++ sl := by simp
      rw [this, show pl.length + 1 = (pl ++ ['.']).length by simp]
      exact List.drop_left _ _
    unfold findService
    rw [hdata, hsplit]
    dsimp only
    rw [htake, hdrop]

/-- C8 witness: on a server map registering service `Foo` with method `Sum`,
looking up "Foo.Sum" succeeds and a dotless string is rejected as
ill-formed. -/
theorem c8_witness :
    findService [("Foo", c8ServiceFoo)] ("Foo" ++ "." ++ "Sum") =
      FindResult.found c8ServiceFoo c8MethodSum ∧
    findService [("Foo", c8ServiceFoo)] "nodot" =
      FindResult.illFormed "rpc server:service/method request ill-formed:nodot" := by
  constructor
  · have h := (c8_find_service [("Foo", c8ServiceFoo)] "x" "Foo" "Sum").2 (by decide)
    rw [h]
    rfl
  · have h := (c8_find_service [("Foo", c8ServiceFoo)] "nodot" "x" "y").1 (by decide)
    rw [h]
    rfl

/-- C9: the codec constructor map binds both the gob and the JSON identifier
to the gob constructor, so requesting the JSON codec is not a setup error and
silently selects gob encoding; every other codec identifier is unknown and
fatal at client construction. -/
theorem c9_codec_map (t : String) (opt : RpcOption) :
    List.lookup GobType NewCodecFuncMap = some CodecCtor.gobCodec ∧
    List.lookup JsonType NewCodecFuncMap = some CodecCtor.gobCodec ∧
    (opt.codecType = JsonType → newClientCodecSelect opt = Except.ok CodecCtor.gobCodec) ∧
    (t ≠ GobType → t ≠ JsonType → List.lookup t NewCodecFuncMap = none) ∧
    (opt.codecType ≠ GobType → opt.codecType ≠ JsonType →
      newClientCodecSelect opt = Except.error ("invalid codec type " ++ opt.codecType)) := by
  have hlk : ∀ u : String, u ≠ GobType → u ≠ JsonType →
      List.lookup u NewCodecFuncMap = none := by
    intro u h1 h2
    have b1 : (u == GobType) = false := beq_eq_false_iff_ne.mpr h1
    have b2 : (u == JsonType) = false := beq_eq_false_iff_ne.mpr h2
    simp [NewCodecFuncMap, List.lookup, b1, b2]
  refine ⟨rfl, rfl, fun h => ?_, hlk t, fun h1 h2 => ?_⟩
  · unfold newClientCodecSelect
    rw [h]
    rfl
  · unfold newClientCodecSelect
    rw [hlk _ h1 h2]

/-- C9 witness: a client option asking for "application/json" selects the gob
constructor, while "application/xml" is rejected as an invalid codec type. -/
theorem c9_witness :
    newClientCodecSelect
      { magicNumber := 0, codecType := "application/json", connectTimeout := 0,
        handleTimeout := 0 } = Except.ok CodecCtor.gobCodec ∧
    newClientCodecSelect
      { magicNumber := 0, codecType := "application/xml", connectTimeout := 0,
        handleTimeout := 0 } = Except.error "invalid codec type application/xml" := by
  constructor
  · exact (c9_codec_map "x" ⟨0, "application/json", 0, 0⟩).2.2.1 rfl
  · have h := (c9_codec_map "x" ⟨0, "application/xml", 0, 0⟩).2.2.2.2 (by decide) (by decide)
    exact h.trans (by rfl)

/-- C10 counterexample: `parseOptions` called with two arguments whose first
is nil returns the default option instead of the error the claim promises for
every more-than-one-argument call. -/
theorem c10_counterexample :
    parseOptions [none, none] = Except.ok DefaultOption ∧
    ([none, none] : List (Option RpcOption)).length > 1 :=
  ⟨rfl, by decide⟩

/-- C10 (amended): with no arguments or a nil first argument `parseOptions`
returns the default Option (magic 0x3bef5c, gob codec, 10-second connect
timeout) regardless of how many arguments follow; with exactly one non-nil
argument it overwrites the magic number with the default and replaces an empty
codec type with gob, keeping the rest; with more than one argument whose
first is non-nil it errors; and any successfully parsed option carries the
default magic number, so a dialled client can never send a wrong magic. -/
theorem c10_parse_options (o o' : RpcOption) (rest os : List (Option RpcOption)) :
    parseOptions [] = Except.ok DefaultOption ∧
    parseOptions (none :: rest) = Except.ok DefaultOption ∧
    (rest ≠ [] → parseOptions (some o :: rest) =
      Except.error "number of options is more than 1") ∧
    (∃ o2 : RpcOption, parseOptions [some o] = Except.ok o2 ∧
      o2.magicNumber = MagicNumber ∧
      o2.codecType = (if o.codecType = "" then GobType else o.codecType) ∧
      o2.connectTimeout = o.connectTimeout ∧ o2.handleTimeout = o.handleTimeout) ∧
    (parseOptions os = Except.ok o' → o'.magicNumber = MagicNumber) ∧
    DefaultOption = { magicNumber := 0x3bef5c, codecType := GobType,
                      connectTimeout := 10000000000, handleTimeout := 0 } := by
  refine ⟨rfl, rfl, fun hr => ?_, ⟨_, rfl, rfl, rfl, rfl, rfl⟩, fun hok => ?_, rfl⟩
  · cases rest with
    | nil => exact absurd rfl hr
    | cons a as =>
      unfold parseOptions
      dsimp only
      rw [if_pos (by simp)]
  · cases os with
    | nil => rw [← Except.ok.inj hok]; rfl
    | cons a os' =>
      cases a with
      | none => rw [← Except.ok.inj hok]; rfl
      | some o3 =>
        unfold parseOptions at hok
        dsimp only at hok
        split at hok
        · exact Except.noConfusion hok
        · rw [← Except.ok.inj hok]
          rfl

/-- C10 witness: two arguments with a non-nil first argument are rejected. -/
theorem c10_witness :
    parseOptions [some ⟨999, "", 5, 7⟩, none] =
      Except.error "number of options is more than 1" :=
  (c10_parse_options ⟨999, "", 5, 7⟩ DefaultOption [none] []).2.2.1 (by decide)

end Minirpc
